import Mathlib

/-!
Shallow embedding of the version-dashboard application (`app.py`): the three
source fetchers, the source registry, the async aggregator, the background
refresh loop, the in-memory cache and the two read-only routes.  HTTP traffic
is modelled by an explicit `Client` whose `net` field maps each issued request
to a network outcome; JSON bodies are modelled by the `Json` inductive.  A
fetcher that lets a Python exception escape (one outside the caught exception
classes) is modelled as returning `none`.
-/

namespace DzVer

/-- A JSON value, as produced by `resp.json()`.  Numbers are restricted to
integers, which covers every payload the program inspects. -/
inductive Json where
  | null : Json
  | bool (b : Bool) : Json
  | num (n : Int) : Json
  | str (s : String) : Json
  | arr (xs : List Json) : Json
  | obj (fields : List (String × Json)) : Json

/-- Python exception classes that subscription (`x[k]`) can raise. -/
inductive PyErr where
  | keyError : PyErr
  | indexError : PyErr
  | typeError : PyErr
deriving DecidableEq

/-- Outcome of parsing a response body with `resp.json()`. -/
inductive BodyResult where
  | malformed : BodyResult
  | ok (j : Json) : BodyResult

/-- Outcome of one `client.get(url)`: either a transport-level failure
(`httpx.RequestError`) or a response with a status code and a body. -/
inductive NetResult where
  | transportError : NetResult
  | response (status : Nat) (body : BodyResult) : NetResult

/-- A request as issued by `client.get`: the URL plus the headers the client
attaches (httpx merges client-level headers into every request). -/
structure HttpRequest where
  url : String
  headers : List (String × String)
deriving DecidableEq

/-- The `httpx.AsyncClient`: client-wide headers and the network's reply to
each request. -/
structure Client where
  headers : List (String × String)
  net : HttpRequest → NetResult

/-- First-match association-list lookup, modelling Python `dict` access for
the string-keyed dictionaries the program builds. -/
def alookup {β : Type} : List (String × β) → String → Option β
  | [], _ => none
  | (k2, v) :: rest, k => if k2 = k then some v else alookup rest k

/-- Python truthiness of a JSON value (`if x:`). -/
def pyTruthy : Json → Bool
  | .null => false
  | .bool b => b
  | .num n => if n = 0 then false else true
  | .str s => if s = "" then false else true
  | .arr [] => false
  | .arr (_ :: _) => true
  | .obj [] => false
  | .obj (_ :: _) => true

/-- Python `len(x)`; `none` when `x` has no length (`TypeError`). -/
def pyLen : Json → Option Nat
  | .str s => some s.length
  | .arr xs => some xs.length
  | .obj fs => some fs.length
  | _ => none

/-- Python iteration over a value: lists yield elements, strings yield
one-character strings, dicts yield their keys; `none` otherwise. -/
def pyIter : Json → Option (List Json)
  | .arr xs => some xs
  | .str s => some (s.toList.map (fun c => Json.str (String.mk [c])))
  | .obj fs => some (fs.map (fun kv => Json.str kv.1))
  | _ => none

/-- Python `x[k]` for a string key `k`. -/
def pySubscrStr (j : Json) (k : String) : Except PyErr Json :=
  match j with
  | .obj fs =>
    match alookup fs k with
    | some v => .ok v
    | none => .error .keyError
  | _ => .error .typeError

/-- Python `x[i]` for an integer index `i`. -/
def pySubscrNat (j : Json) (i : Nat) : Except PyErr Json :=
  match j with
  | .arr xs =>
    match xs.get? i with
    | some v => .ok v
    | none => .error .indexError
  | .obj _ => .error .keyError
  | .str s =>
    match s.toList.get? i with
    | some c => .ok (.str (String.mk [c]))
    | none => .error .indexError
  | _ => .error .typeError

/-- Lower-case hexadecimal digit, for `\uXXXX` escapes. -/
def hexDigit (n : Nat) : Char :=
  if n % 16 < 10 then Char.ofNat (48 + n % 16) else Char.ofNat (87 + n % 16)

/-- A `\uXXXX` escape for a code unit. -/
def uEscape (n : Nat) : List Char :=
  ['\\', 'u', hexDigit (n / 4096), hexDigit (n / 256), hexDigit (n / 16), hexDigit n]

/-- How `json.dumps` (with its default `ensure_ascii=True`) renders one
character inside a string literal. -/
def jsonEscapeChar (c : Char) : List Char :=
  if c = '"' then ['\\', '"']
  else if c = '\\' then ['\\', '\\']
  else if c = '\n' then ['\\', 'n']
  else if c = '\t' then ['\\', 't']
  else if c = '\r' then ['\\', 'r']
  else if c = Char.ofNat 8 then ['\\', 'b']
  else if c = Char.ofNat 12 then ['\\', 'f']
  else if c.toNat < 32 || 126 < c.toNat then
    if c.toNat < 65536 then uEscape c.toNat
    else uEscape (55296 + (c.toNat - 65536) / 1024) ++ uEscape (56320 + (c.toNat - 65536) % 1024)
  else [c]

/-- `json.dumps` of a string: quoted, with every character escaped. -/
def pyDumpsStr (s : String) : List Char :=
  '"' :: (s.toList.map jsonEscapeChar).flatten ++ ['"']

mutual

/-- `json.dumps` of a JSON value (default separators). -/
def pyDumps : Json → String
  | .null => "null"
  | .bool b => if b then "true" else "false"
  | .num n => toString n
  | .str s => String.mk (pyDumpsStr s)
  | .arr xs => "[" ++ String.intercalate ", " (pyDumpsList xs) ++ "]"
  | .obj fs => "\x7b" ++ String.intercalate ", " (pyDumpsObj fs) ++ "\x7d"

/-- `json.dumps` of the elements of a JSON array. -/
def pyDumpsList : List Json → List String
  | [] => []
  | x :: xs => pyDumps x :: pyDumpsList xs

/-- `json.dumps` of the entries of a JSON object. -/
def pyDumpsObj : List (String × Json) → List String
  | [] => []
  | (k, v) :: fs => (String.mk (pyDumpsStr k) ++ ": " ++ pyDumps v) :: pyDumpsObj fs

end

/-- Python `str.split(sep)` for a one-character separator, running over the
character list: every occurrence of `sep` ends the current segment, and no
segment is dropped (so the empty string splits to `[""]`). -/
def pySplitAux (sep : Char) : List Char → List Char → List String
  | [], acc => [String.mk acc.reverse]
  | c :: cs, acc =>
    if c = sep then String.mk acc.reverse :: pySplitAux sep cs []
    else pySplitAux sep cs (c :: acc)

/-- Python `s.split(sep)` for a one-character separator. -/
def pySplit (s : String) (sep : Char) : List String :=
  pySplitAux sep s.toList []

/-- Python `str.lower()`, character by character (the program only compares
against ASCII needles). -/
def pyLower (s : String) : String :=
  String.mk (s.toList.map Char.toLower)

/-- Python `s.replace(c, "")` for the one-character pattern `"` used at
line 46 of `app.py`: removes every occurrence. -/
def pyRemoveQuotes (s : String) : String :=
  String.mk (s.toList.filter (fun c => c ≠ '"'))

/-- The first component of Python `s.partition(c)`: the text before the first
occurrence of `c` (all of `s` when `c` does not occur). -/
def pyPartitionHead (s : String) (c : Char) : String :=
  String.mk (s.toList.takeWhile (fun x => x ≠ c))

/-- `httpx.Response.is_success`, the condition under which
`raise_for_status()` does not raise. -/
def is_success (status : Nat) : Bool :=
  200 ≤ status && status < 300

/-- URL built by `fetch_github_release`. -/
def github_url (repo : String) : String :=
  "https://api.github.com/repos/" ++ repo ++ "/releases/latest"

/-- URL built by `fetch_channel_version`. -/
def channel_url (channel : String) : String :=
  "https://update." ++ channel ++ ".io/v1-release/channels"

/-- URL built by `fetch_dockerhub_tags`. -/
def dockerhub_url (repo name_filter : String) : String :=
  "https://hub.docker.com/v2/repositories/" ++ repo ++ "/tags?name=" ++ name_filter ++
    "&page_size=100"

/-- Body of the `try` block of `fetch_github_release`, applied to the network
outcome.  Only `httpx.RequestError` and `httpx.HTTPStatusError` are caught, so
a malformed body (`json.JSONDecodeError`) or a non-dict body (`AttributeError`
from `.get`) lets the exception escape, modelled as `none`.  The fetcher
returns `resp.json().get('tag_name', '') or "no release found"`, i.e. the raw
JSON value of `tag_name` when that value is truthy. -/
def fetch_github_release_res (res : NetResult) : Option Json :=
  match res with
  | .transportError => some (.str "error fetching release")
  | .response status body =>
    if is_success status then
      match body with
      | .malformed => none
      | .ok data =>
        match data with
        | .obj fs =>
          let v := (alookup fs "tag_name").getD (.str "")
          some (if pyTruthy v then v else .str "no release found")
        | _ => none
    else some (.str "error fetching release")

/-- `fetch_github_release`: the request it issues and the value it returns. -/
def fetch_github_release (client : Client) (repo : String) : HttpRequest × Option Json :=
  let req : HttpRequest := ⟨github_url repo, client.headers⟩
  (req, fetch_github_release_res (client.net req))

/-- The error-string result of the `except` arm of `fetch_channel_version` for
the exception classes it catches on subscription; `TypeError` is not in the
caught tuple, so it escapes. -/
def channel_subscr_err : PyErr → Option String
  | .keyError => some "upstream server issue"
  | .indexError => some "upstream server issue"
  | .typeError => none

/-- Body of the `try` block of `fetch_channel_version`: on a parsed body it
computes `json.dumps(data["data"][0]["latest"]).replace('"', '').partition('+')`
and returns the head.  `json.JSONDecodeError`, `KeyError` and `IndexError` are
caught (along with the transport and status errors); `TypeError` escapes. -/
def fetch_channel_version_res (res : NetResult) : Option String :=
  match res with
  | .transportError => some "upstream server issue"
  | .response status body =>
    if is_success status then
      match body with
      | .malformed => some "upstream server issue"
      | .ok data =>
        match pySubscrStr data "data" with
        | .error e => channel_subscr_err e
        | .ok d =>
          match pySubscrNat d 0 with
          | .error e => channel_subscr_err e
          | .ok e0 =>
            match pySubscrStr e0 "latest" with
            | .error e => channel_subscr_err e
            | .ok v => some (pyPartitionHead (pyRemoveQuotes (pyDumps v)) '+')
    else some "upstream server issue"

/-- `fetch_channel_version`: the request it issues and the value it returns. -/
def fetch_channel_version (client : Client) (channel : String) : HttpRequest × Option String :=
  let req : HttpRequest := ⟨channel_url channel, client.headers⟩
  (req, fetch_channel_version_res (client.net req))

/-- `parse_version` from `fetch_dockerhub_tags`: split on `.`, keep the digit
characters of each component, `int(digits) if digits else 0`. -/
def parse_version (tag_name : String) : List Nat :=
  (pySplit tag_name '.').map (fun part =>
    let digits := part.toList.filter Char.isDigit
    if digits.isEmpty then 0 else digits.foldl (fun acc c => acc * 10 + (c.toNat - 48)) 0)

/-- Python comparison `a < b` on the integer tuples built by `parse_version`:
lexicographic, with an exhausted (strictly shorter) tuple comparing smaller. -/
def tupLt : List Nat → List Nat → Bool
  | [], [] => false
  | [], _ :: _ => true
  | _ :: _, [] => false
  | a :: as, b :: bs => if a < b then true else if b < a then false else tupLt as bs

/-- Python `max(x :: xs, key)`: fold keeping the current maximum, replacing it
exactly when a later item's key compares strictly greater. -/
def pyMax (key : String → List Nat) (x : String) (xs : List String) : String :=
  xs.foldl (fun best t => if tupLt (key best) (key t) then t else best) x

/-- The excluded substrings of `fetch_dockerhub_tags`. -/
def excludedSubstrings : List String := ["ppc", "dev", "beta", "ea"]

/-- Python `needle in hay` on strings. -/
def strContains (hay needle : String) : Bool :=
  (List.range (hay.length + 1)).any (fun i => needle.toList.isPrefixOf (hay.toList.drop i))

/-- `any(ex in tag_name.lower() for ex in excluded)`. -/
def anyExcluded (tag_name : String) : Bool :=
  excludedSubstrings.any (fun ex => strContains (pyLower tag_name) ex)

/-- `tag.get('name', '')`: `none` models the `AttributeError` raised when the
element of `results` is not a dict. -/
def pyTagGetName (tag : Json) : Option Json :=
  match tag with
  | .obj fs => some ((alookup fs "name").getD (.str ""))
  | _ => none

/-- The list comprehension of `fetch_dockerhub_tags`: keep each tag's name
when it is truthy and matches no excluded substring.  A non-dict element or a
truthy non-string name raises `AttributeError` (`none`); a falsy name of any
type is dropped by the `and` short-circuit. -/
def valid_tags_of : List Json → Option (List String)
  | [] => some []
  | t :: ts =>
    match pyTagGetName t with
    | none => none
    | some n =>
      match valid_tags_of ts with
      | none => none
      | some rest =>
        match n with
        | .str s => if s ≠ "" && !anyExcluded s then some (s :: rest) else some rest
        | v => if pyTruthy v then none else some rest

/-- Body of the `try` block of `fetch_dockerhub_tags`, applied to the network
outcome.  It catches the transport and status errors, `json.JSONDecodeError`,
`KeyError` and `IndexError`; an `AttributeError` or `TypeError` escapes
(`none`).  The guard is `data.get('results') and len(data['results']) > 0`. -/
def fetch_dockerhub_tags_res (res : NetResult) : Option String :=
  match res with
  | .transportError => some "error fetching tags"
  | .response status body =>
    if is_success status then
      match body with
      | .malformed => some "error fetching tags"
      | .ok data =>
        match data with
        | .obj fs =>
          let r := (alookup fs "results").getD .null
          if pyTruthy r then
            match pyLen r with
            | none => none
            | some len =>
              if 0 < len then
                match pyIter r with
                | none => none
                | some tags =>
                  match valid_tags_of tags with
                  | none => none
                  | some valid_tags =>
                    match valid_tags with
                    | [] => some "no valid tags found"
                    | v :: vs => some (pyMax parse_version v vs)
              else some "no tags found"
          else some "no tags found"
        | _ => none
    else some "error fetching tags"

/-- `fetch_dockerhub_tags`: the request it issues and the value it returns. -/
def fetch_dockerhub_tags (client : Client) (repo name_filter : String) :
    HttpRequest × Option String :=
  let req : HttpRequest := ⟨dockerhub_url repo name_filter, client.headers⟩
  (req, fetch_dockerhub_tags_res (client.net req))

/-- One entry of the `sources` dict of `get_versions_async`. -/
structure SourceSpec where
  name : String
  kind : String
  identifier : String
  options : List (String × String)

/-- The source registry of `get_versions_async`, in insertion order. -/
def sources : List SourceSpec := [
  ⟨"rancher", "github", "rancher/rancher", []⟩,
  ⟨"rke2-stable", "channel", "rke2", []⟩,
  ⟨"k3s-stable", "channel", "k3s", []⟩,
  ⟨"longhorn", "github", "longhorn/longhorn", []⟩,
  ⟨"cert-manager", "github", "cert-manager/cert-manager", []⟩,
  ⟨"harvester", "github", "harvester/harvester", []⟩,
  ⟨"hauler", "github", "hauler-dev/hauler", []⟩,
  ⟨"portworx", "dockerhub", "portworx/px-pure-csi-driver", [("name_filter", "25")]⟩,
  ⟨"px_oper", "dockerhub", "portworx/px-operator", [("name_filter", "25")]⟩,
  ⟨"stork", "dockerhub", "openstorage/stork", [("name_filter", "25")]⟩,
  ⟨"pxenterprise", "dockerhub", "portworx/px-enterprise", [("name_filter", "3")]⟩]

/-- The task built for one registry entry (the `if/elif` chain of
`get_versions_async`); an unrecognized kind appends no task.  Channel and
registry results are strings; they are injected into `Json` so all slots share
one value type.  The keyword `name_filter` defaults to `"version"`. -/
def source_task (client : Client) (s : SourceSpec) : Option (Option Json) :=
  if s.kind = "github" then some (fetch_github_release client s.identifier).2
  else if s.kind = "channel" then
    some (((fetch_channel_version client s.identifier).2).map Json.str)
  else if s.kind = "dockerhub" then
    some (((fetch_dockerhub_tags client s.identifier
      ((alookup s.options "name_filter").getD "version")).2).map Json.str)
  else none

/-- `asyncio.gather`: waits for every task; an exception escaping any task is
re-raised, failing the whole aggregation (`none`). -/
def gather {α : Type} : List (Option α) → Option (List α)
  | [] => some []
  | t :: ts =>
    match t with
    | none => none
    | some v =>
      match gather ts with
      | none => none
      | some vs => some (v :: vs)

/-- `get_versions_async`: fan out one task per registry entry over a shared
client, gather all results, and zip them with the registry keys
(`dict(zip(sources.keys(), results))`). -/
def get_versions_async (client : Client) : Option (List (String × Json)) :=
  match gather (sources.filterMap (source_task client)) with
  | some results => some ((sources.map SourceSpec.name).zip results)
  | none => none

/-- `HEADERS`: the client-wide header dict built at startup from the optional
`GITHUB2_TOKEN` environment variable (an unset or empty variable is falsy). -/
def HEADERS (github_token : Option String) : List (String × String) :=
  match github_token with
  | some t => if t = "" then [] else [("Authorization", "Bearer " ++ t)]
  | none => []

/-- One iteration of the `while True` body of `refresh_versions`: run the
aggregator; on success replace `version_cache` wholesale, on an escaping
exception log and leave it unchanged. -/
def refresh_once (net : HttpRequest → NetResult) (github_token : Option String)
    (version_cache : List (String × Json)) : List (String × Json) :=
  match get_versions_async ⟨HEADERS github_token, net⟩ with
  | some snap => snap
  | none => version_cache

/-- The refresh loop after `n` completed cycles, the network outcome of cycle
`i` being described by `nets i`. -/
def refresh_versions (nets : Nat → HttpRequest → NetResult) (github_token : Option String)
    (init : List (String × Json)) : Nat → List (String × Json)
  | 0 => init
  | n + 1 => refresh_once (nets n) github_token (refresh_versions nets github_token init n)

/-- The process-wide mutable state: the `version_cache` global. -/
structure AppState where
  version_cache : List (String × Json)

/-- The `/json` route: returns `(jsonify(version_cache), 200)` and the state
it leaves behind (reading mutates nothing). -/
def json_all_the_things (st : AppState) : (List (String × Json) × Nat) × AppState :=
  ((st.version_cache, 200), st)

/-- `version_cache.get(key, "loading...")` as used by the `/` route. -/
def pyDictGet (d : List (String × Json)) (k : String) (dflt : Json) : Json :=
  (alookup d k).getD dflt

/-- The cache keys read by the `/` route, in template order. -/
def curl_keys : List String :=
  ["rancher", "rke2-stable", "k3s-stable", "longhorn", "cert-manager", "harvester",
   "hauler", "portworx", "pxenterprise", "px_oper", "stork"]

/-- The `/` route: each template placeholder receives
`version_cache.get(key, "loading...")`. -/
def curl_all_the_things (version_cache : List (String × Json)) : List Json :=
  curl_keys.map (fun k => pyDictGet version_cache k (.str "loading..."))

/-- The `__main__` warm-up: one synchronous aggregation cycle whose result is
assigned to `version_cache` before `app.run` accepts requests; a warm-up
failure is fatal (no serving starts). -/
def main_startup (net : HttpRequest → NetResult) (github_token : Option String) :
    Option (List (String × Json)) :=
  get_versions_async ⟨HEADERS github_token, net⟩

/-- The per-tag keep condition of the registry-tag filter, on string names. -/
def keepTag (s : String) : Bool :=
  decide (s ≠ "") && !anyExcluded s

/-- The name a well-shaped tag object contributes: `""` when the `name` key is
absent, the string itself when present; `none` for any shape on which the
comprehension would raise. -/
def tagStr (t : Json) : Option String :=
  match t with
  | .obj fs =>
    match alookup fs "name" with
    | none => some ""
    | some (.str s) => some s
    | some _ => none
  | _ => none

/-- Characters that `json.dumps` renders verbatim: printable ASCII other than
the quote and the backslash. -/
def plainChar (c : Char) : Bool :=
  decide (c ≠ '"') && decide (c ≠ '\\') && decide (32 ≤ c.toNat) && decide (c.toNat ≤ 126)

/-- Follows claim C1's words, not the source: compare the parsed integer
sequences lexicographically with the shorter sequence treated as having
trailing zeros. -/
def spec_padded_lt (a b : List Nat) : Bool :=
  let n := max a.length b.length
  tupLt (a ++ List.replicate (n - a.length) 0) (b ++ List.replicate (n - b.length) 0)

/-- Follows claim C3's words, not the source: strip surrounding quote
characters from the descended value, then truncate at the first `+`. -/
def spec_strip_and_truncate (s : String) : String :=
  let c1 := s.toList
  let c2 := if c1.head? = some '"' then c1.tail else c1
  let c3 := if c2.getLast? = some '"' then c2.dropLast else c2
  String.mk (c3.takeWhile (fun c => c ≠ '+'))

/-! ### Supporting lemmas -/

theorem gather_length {α : Type} (l : List (Option α)) :
    ∀ r, gather l = some r → r.length = l.length := by
  induction l with
  | nil =>
    intro r h
    simp [gather] at h
    simp [← h]
  | cons t ts ih =>
    intro r h
    cases t with
    | none => simp [gather] at h
    | some v =>
      cases hg : gather ts with
      | none => simp [gather, hg] at h
      | some vs =>
        simp [gather, hg] at h
        simp [← h, ih vs hg]

theorem tupLt_iff_lex : ∀ a b : List Nat, tupLt a b = true ↔ List.Lex (· < ·) a b := by
  intro a
  induction a with
  | nil =>
    intro b
    cases b with
    | nil => simp [tupLt]
    | cons y ys => simpa [tupLt] using List.Lex.nil
  | cons x xs ih =>
    intro b
    cases b with
    | nil => simp [tupLt]
    | cons y ys =>
      simp only [tupLt]
      constructor
      · intro h
        by_cases h1 : x < y
        · exact List.Lex.rel h1
        · by_cases h2 : y < x
          · rw [if_neg h1, if_pos h2] at h
            exact absurd h (by simp)
          · rw [if_neg h1, if_neg h2] at h
            have hxy : x = y := by omega
            subst hxy
            exact List.Lex.cons ((ih ys).mp h)
      · intro h
        cases h with
        | cons h2 =>
          simpa [Nat.lt_irrefl] using (ih ys).mpr h2
        | rel h2 => simp [h2]

theorem tupLt_irrefl : ∀ a : List Nat, tupLt a a = false
  | [] => rfl
  | x :: xs => by simp [tupLt, Nat.lt_irrefl, tupLt_irrefl xs]

theorem tupLt_trans : ∀ a b c : List Nat, tupLt a b = true → tupLt b c = true →
    tupLt a c = true
  | [], [], _, h1, _ => by simp [tupLt] at h1
  | [], _ :: _, [], _, h2 => by simp [tupLt] at h2
  | [], _ :: _, _ :: _, _, _ => by simp [tupLt]
  | _ :: _, [], _, h1, _ => by simp [tupLt] at h1
  | _ :: _, _ :: _, [], _, h2 => by simp [tupLt] at h2
  | a :: as, b :: bs, c :: cs, h1, h2 => by
    simp only [tupLt] at h1 h2 ⊢
    by_cases hab : a < b
    · by_cases hbc : b < c
      · rw [if_pos (Nat.lt_trans hab hbc)]
      · rw [if_neg hbc] at h2
        by_cases hcb : c < b
        · rw [if_pos hcb] at h2
          exact absurd h2 (by simp)
        · have hbceq : b = c := by omega
          subst hbceq
          rw [if_pos hab]
    · rw [if_neg hab] at h1
      by_cases hba : b < a
      · rw [if_pos hba] at h1
        exact absurd h1 (by simp)
      · rw [if_neg hba] at h1
        have habeq : a = b := by omega
        subst habeq
        by_cases hac : a < c
        · rw [if_pos hac]
        · rw [if_neg hac] at h2 ⊢
          by_cases hca : c < a
          · rw [if_pos hca] at h2
            exact absurd h2 (by simp)
          · rw [if_neg hca] at h2 ⊢
            exact tupLt_trans as bs cs h1 h2

theorem tupLt_asymm {a b : List Nat} (h1 : tupLt a b = true) : tupLt b a = false := by
  by_contra hc
  have hba : tupLt b a = true := by revert hc; cases tupLt b a <;> simp
  have := tupLt_trans a b a h1 hba
  simp [tupLt_irrefl] at this

theorem tupLt_neg_trans : ∀ a b c : List Nat, tupLt a b = false → tupLt b c = false →
    tupLt a c = false
  | [], _, [], _, _ => rfl
  | [], [], _ :: _, _, h2 => by simp [tupLt] at h2
  | [], _ :: _, _ :: _, h1, _ => by simp [tupLt] at h1
  | _ :: _, [], _ :: _, _, h2 => by simp [tupLt] at h2
  | _ :: _, _, [], _, _ => rfl
  | a :: as, b :: bs, c :: cs, h1, h2 => by
    simp only [tupLt] at h1 h2 ⊢
    by_cases hab : a < b
    · rw [if_pos hab] at h1
      exact absurd h1 (by simp)
    · rw [if_neg hab] at h1
      by_cases hbc : b < c
      · rw [if_pos hbc] at h2
        exact absurd h2 (by simp)
      · rw [if_neg hbc] at h2
        by_cases hba : b < a
        · have hca : c < a := by omega
          rw [if_neg (Nat.lt_asymm hca), if_pos hca]
        · rw [if_neg hba] at h1
          by_cases hcb : c < b
          · have hca : c < a := by omega
            rw [if_neg (Nat.lt_asymm hca), if_pos hca]
          · have habeq : a = b := by omega
            have hbceq : b = c := by omega
            rw [if_neg hcb] at h2
            subst habeq
            subst hbceq
            rw [if_neg (Nat.lt_irrefl a), if_neg (Nat.lt_irrefl a)]
            exact tupLt_neg_trans as bs cs h1 h2

theorem pyMax_spec (key : String → List Nat) :
    ∀ (xs : List String) (x : String),
      pyMax key x xs ∈ x :: xs ∧
      ∀ t ∈ x :: xs, tupLt (key (pyMax key x xs)) (key t) = false := by
  intro xs
  induction xs with
  | nil =>
    intro x
    refine ⟨by simp [pyMax], ?_⟩
    intro t ht
    rw [List.mem_singleton] at ht
    rw [ht]
    simpa [pyMax] using tupLt_irrefl (key x)
  | cons y ys ih =>
    intro x
    have hstep : pyMax key x (y :: ys) =
        pyMax key (if tupLt (key x) (key y) then y else x) ys := rfl
    by_cases hxy : tupLt (key x) (key y) = true
    · rw [hstep, if_pos hxy]
      obtain ⟨hmem, hbnd⟩ := ih y
      refine ⟨List.mem_cons_of_mem x hmem, ?_⟩
      intro t ht
      rcases List.mem_cons.mp ht with ht | ht
      · rw [ht]
        have hy := hbnd y (List.mem_cons_self y ys)
        by_contra hc
        have hc' : tupLt (key (pyMax key y ys)) (key x) = true := by
          revert hc; cases tupLt (key (pyMax key y ys)) (key x) <;> simp
        have := tupLt_trans _ _ _ hc' hxy
        simp [hy] at this
      · exact hbnd t ht
    · have hxy' : tupLt (key x) (key y) = false := by
        revert hxy; cases tupLt (key x) (key y) <;> simp
      rw [hstep, if_neg (by simp [hxy'])]
      obtain ⟨hmem, hbnd⟩ := ih x
      refine ⟨?_, ?_⟩
      · rcases List.mem_cons.mp hmem with hm | hm
        · rw [hm]
          exact List.mem_cons_self x (y :: ys)
        · exact List.mem_cons_of_mem x (List.mem_cons_of_mem y hm)
      · intro t ht
        rcases List.mem_cons.mp ht with ht | ht
        · rw [ht]
          exact hbnd x (List.mem_cons_self x ys)
        · rcases List.mem_cons.mp ht with ht2 | ht2
          · rw [ht2]
            exact tupLt_neg_trans _ _ _ (hbnd x (List.mem_cons_self x ys)) hxy'
          · exact hbnd t (List.mem_cons_of_mem x ht2)

theorem valid_tags_of_eq : ∀ tags : List Json, (∀ t ∈ tags, (tagStr t).isSome) →
    valid_tags_of tags = some ((tags.filterMap tagStr).filter keepTag) := by
  intro tags
  induction tags with
  | nil => intro _; rfl
  | cons t ts ih =>
    intro h
    have ht := h t (List.mem_cons_self t ts)
    have hts : ∀ u ∈ ts, (tagStr u).isSome := fun u hu => h u (List.mem_cons_of_mem t hu)
    cases t with
    | obj fs =>
      cases hn : alookup fs "name" with
      | none =>
        have hkeep : keepTag "" = false := by simp [keepTag]
        simp [valid_tags_of, pyTagGetName, hn, ih hts, tagStr, List.filterMap_cons,
          List.filter_cons, hkeep]
      | some v =>
        cases v with
        | str s =>
          by_cases hk : keepTag s = true
          · have hk2 : (decide (s ≠ "") && !anyExcluded s) = true := hk
            simp [valid_tags_of, pyTagGetName, hn, ih hts, tagStr, List.filterMap_cons,
              List.filter_cons, hk, hk2]
            simpa using hk2
          · have hk' : keepTag s = false := by revert hk; cases keepTag s <;> simp
            have hk2 : (decide (s ≠ "") && !anyExcluded s) = false := hk'
            simp [valid_tags_of, pyTagGetName, hn, ih hts, tagStr, List.filterMap_cons,
              List.filter_cons, hk', hk2]
            simpa using hk2
        | null => simp [tagStr, hn] at ht
        | bool b => simp [tagStr, hn] at ht
        | num n => simp [tagStr, hn] at ht
        | arr xs => simp [tagStr, hn] at ht
        | obj fs2 => simp [tagStr, hn] at ht
    | null => simp [tagStr] at ht
    | bool b => simp [tagStr] at ht
    | num n => simp [tagStr] at ht
    | str s => simp [tagStr] at ht
    | arr xs => simp [tagStr] at ht

theorem alookup_of_mem_keys {β : Type} : ∀ (l : List (String × β)) (k : String),
    k ∈ l.map Prod.fst → ∃ v, alookup l k = some v := by
  intro l
  induction l with
  | nil => intro k h; simp at h
  | cons p ps ih =>
    intro k h
    obtain ⟨k2, v⟩ := p
    by_cases hk : k2 = k
    · exact ⟨v, by simp [alookup, hk]⟩
    · rw [List.map_cons] at h
      rcases List.mem_cons.mp h with h | h
      · exact absurd h.symm hk
      · simpa [alookup, hk] using ih k h

theorem get_versions_async_keys (client : Client) (snap : List (String × Json))
    (h : get_versions_async client = some snap) :
    snap.map Prod.fst = sources.map SourceSpec.name := by
  unfold get_versions_async at h
  cases hg : gather (sources.filterMap (source_task client)) with
  | none => rw [hg] at h; exact absurd h (by simp)
  | some results =>
    rw [hg] at h
    have hsnap : snap = (sources.map SourceSpec.name).zip results := by
      cases h; rfl
    have hlen : results.length = (sources.filterMap (source_task client)).length :=
      gather_length _ _ hg
    have hlen2 : (sources.filterMap (source_task client)).length = 11 := rfl
    have hle : (sources.map SourceSpec.name).length ≤ results.length := by
      rw [hlen, hlen2]; rfl
    rw [hsnap]
    exact List.map_fst_zip _ _ hle

theorem jsonEscapeChar_plain (c : Char) (h : plainChar c = true) : jsonEscapeChar c = [c] := by
  simp [plainChar] at h
  obtain ⟨⟨⟨h1, h2⟩, h3⟩, h4⟩ := h
  have e1 : c ≠ '\n' := by intro hc; rw [hc] at h3; exact absurd h3 (by decide)
  have e2 : c ≠ '\t' := by intro hc; rw [hc] at h3; exact absurd h3 (by decide)
  have e3 : c ≠ '\r' := by intro hc; rw [hc] at h3; exact absurd h3 (by decide)
  have e4 : c ≠ Char.ofNat 8 := by intro hc; rw [hc] at h3; exact absurd h3 (by decide)
  have e5 : c ≠ Char.ofNat 12 := by intro hc; rw [hc] at h3; exact absurd h3 (by decide)
  have e6 : (c.toNat < 32 || 126 < c.toNat) = false := by
    simp [Nat.not_lt.mpr h3, Nat.not_lt.mpr h4]
  unfold jsonEscapeChar
  rw [if_neg h1, if_neg h2, if_neg e1, if_neg e2, if_neg e3, if_neg e4, if_neg e5]
  rw [e6]
  simp

theorem flatten_escape_plain : ∀ l : List Char, (∀ c ∈ l, plainChar c = true) →
    (l.map jsonEscapeChar).flatten = l := by
  intro l
  induction l with
  | nil => intro _; rfl
  | cons c cs ih =>
    intro h
    have hc := jsonEscapeChar_plain c (h c (List.mem_cons_self c cs))
    have hcs := ih (fun u hu => h u (List.mem_cons_of_mem c hu))
    simp [hc, hcs]

theorem pyDumpsStr_plain (s : String) (h : ∀ c ∈ s.toList, plainChar c = true) :
    pyDumpsStr s = '"' :: s.toList ++ ['"'] := by
  unfold pyDumpsStr
  rw [flatten_escape_plain s.toList h]

theorem channel_head_plain (s : String) (h : ∀ c ∈ s.toList, plainChar c = true) :
    pyPartitionHead (pyRemoveQuotes (pyDumps (.str s))) '+' =
      String.mk (s.toList.takeWhile (fun c => c ≠ '+')) := by
  have hd : pyDumps (.str s) = String.mk (pyDumpsStr s) := by rw [pyDumps]
  rw [hd, pyDumpsStr_plain s h]
  unfold pyRemoveQuotes pyPartitionHead
  have htl : (String.mk ('"' :: s.toList ++ ['"'])).toList = '"' :: s.toList ++ ['"'] := rfl
  rw [htl]
  have hfil : List.filter (fun c => decide (c ≠ '"')) ('"' :: s.toList ++ ['"']) = s.toList := by
    have hself : List.filter (fun c => decide (c ≠ '"')) s.toList = s.toList := by
      apply List.filter_eq_self.mpr
      intro c hc
      have hp := h c hc
      simp [plainChar] at hp
      simp [hp.1.1.1]
    have hall : ∀ a ∈ s.data, ¬a = '"' := by
      intro a ha
      have hp := h a ha
      simp [plainChar] at hp
      exact hp.1.1.1
    simp [List.filter_cons, List.filter_append, hself]
    exact hall
  rw [hfil]
  rfl

/-! ### Claim theorems -/

/-- C4: for every release-tag fetch, a successful (2xx) response whose
`tag_name` field is a non-empty string returns that string verbatim; a
successful response whose `tag_name` is the empty string or missing returns
"no release found"; a transport error or a non-2xx status (e.g. 500) returns
"error fetching release". -/
theorem claim_C4_release_fetcher (status : Nat) (fs : List (String × Json)) (s : String)
    (h2xx : is_success status = true) :
    (alookup fs "tag_name" = some (.str s) → s ≠ "" →
      fetch_github_release_res (.response status (.ok (.obj fs))) = some (.str s)) ∧
    (alookup fs "tag_name" = some (.str "") →
      fetch_github_release_res (.response status (.ok (.obj fs))) =
        some (.str "no release found")) ∧
    (alookup fs "tag_name" = none →
      fetch_github_release_res (.response status (.ok (.obj fs))) =
        some (.str "no release found")) ∧
    fetch_github_release_res .transportError = some (.str "error fetching release") ∧
    (∀ (status2 : Nat) (body : BodyResult), is_success status2 = false →
      fetch_github_release_res (.response status2 body) =
        some (.str "error fetching release")) := by
  refine ⟨?_, ?_, ?_, rfl, ?_⟩
  · intro hl hs
    simp [fetch_github_release_res, h2xx, hl, pyTruthy, hs]
  · intro hl
    simp [fetch_github_release_res, h2xx, hl, pyTruthy]
  · intro hl
    simp [fetch_github_release_res, h2xx, hl, pyTruthy]
  · intro status2 body hbad
    simp [fetch_github_release_res, hbad]

/-- Witness for C4 at concrete inputs: 200 with `tag_name` "v1.2.3", 200 with
the field missing, and a 500 status. -/
theorem claim_C4_witness :
    fetch_github_release_res (.response 200 (.ok (.obj [("tag_name", .str "v1.2.3")]))) =
      some (.str "v1.2.3") ∧
    fetch_github_release_res (.response 200 (.ok (.obj []))) =
      some (.str "no release found") ∧
    fetch_github_release_res (.response 500 (.ok (.obj [("tag_name", .str "v1.2.3")]))) =
      some (.str "error fetching release") := by
  refine ⟨?_, ?_, ?_⟩
  · exact (claim_C4_release_fetcher 200 [("tag_name", Json.str "v1.2.3")] "v1.2.3"
      (by decide)).1 rfl (by decide)
  · exact (claim_C4_release_fetcher 200 [] "x" (by decide)).2.2.1 rfl
  · exact (claim_C4_release_fetcher 200 [] "x" (by decide)).2.2.2.2 500 _ (by decide)

/-- C10: a 2xx registry-tag response whose JSON object body lacks a `results`
key or maps it to a falsy (e.g. empty) value yields "no tags found" — the
shape anomaly is folded into the empty-list case, not the error path, and no
exception escapes. -/
theorem claim_C10_missing_results (status : Nat) (fs : List (String × Json))
    (h2xx : is_success status = true)
    (hres : alookup fs "results" = none ∨
      ∃ v, alookup fs "results" = some v ∧ pyTruthy v = false) :
    fetch_dockerhub_tags_res (.response status (.ok (.obj fs))) = some "no tags found" := by
  rcases hres with hres | ⟨v, hres, hv⟩
  · simp [fetch_dockerhub_tags_res, h2xx, hres, pyTruthy]
  · simp [fetch_dockerhub_tags_res, h2xx, hres, hv]

/-- Witness for C10: a body with no `results` key and one mapping it to an
empty list. -/
theorem claim_C10_witness :
    fetch_dockerhub_tags_res (.response 200 (.ok (.obj []))) = some "no tags found" ∧
    fetch_dockerhub_tags_res (.response 200 (.ok (.obj [("results", .arr [])]))) =
      some "no tags found" :=
  ⟨claim_C10_missing_results 200 [] (by decide) (Or.inl rfl),
   claim_C10_missing_results 200 [("results", .arr [])] (by decide)
     (Or.inr ⟨.arr [], rfl, rfl⟩)⟩

/-- C1 counterexample: the code's ordering is Python tuple comparison, under
which the strict prefix [3, 1] ranks strictly below [3, 1, 0]; the claimed
pad-with-trailing-zeros comparison makes them equivalent (neither compares
smaller), so the code's ordering differs from the claimed one on the parsed
tags "3.1" and "3.1.0". -/
theorem claim_C1_counterexample :
    parse_version "3.1" = [3, 1] ∧ parse_version "3.1.0" = [3, 1, 0] ∧
    tupLt (parse_version "3.1") (parse_version "3.1.0") = true ∧
    spec_padded_lt (parse_version "3.1") (parse_version "3.1.0") = false ∧
    spec_padded_lt (parse_version "3.1.0") (parse_version "3.1") = false :=
  ⟨by decide, by decide, by decide, by decide, by decide⟩

/-- C1 amended: the ordering splits the tag on '.', keeps only the digit
characters of each component (empty digit string → 0), and compares the
integer sequences by standard lexicographic order — under which a strictly
shorter prefix compares strictly smaller, rather than as if padded with
trailing zeros; for the tag set ["3.1.0", "3.2.0-ea", "3.10.0"] the filtered
set is ["3.1.0", "3.10.0"] and the selected maximum is "3.10.0". -/
theorem claim_C1_ordering :
    (∀ a b : List Nat, tupLt a b = true ↔ List.Lex (· < ·) a b) ∧
    parse_version "3.1.0" = [3, 1, 0] ∧
    parse_version "3.2.0-ea" = [3, 2, 0] ∧
    parse_version "3.10.0" = [3, 10, 0] ∧
    valid_tags_of [Json.obj [("name", Json.str "3.1.0")],
      Json.obj [("name", Json.str "3.2.0-ea")],
      Json.obj [("name", Json.str "3.10.0")]] = some ["3.1.0", "3.10.0"] ∧
    fetch_dockerhub_tags_res (.response 200 (.ok (.obj [("results", .arr
      [Json.obj [("name", Json.str "3.1.0")], Json.obj [("name", Json.str "3.2.0-ea")],
       Json.obj [("name", Json.str "3.10.0")]])]))) = some "3.10.0" :=
  ⟨tupLt_iff_lex, by decide, by decide, by decide, by decide, by decide⟩

/-- C2 counterexample: a tag whose name is the empty string contains none of
the excluded substrings, yet the fetcher excludes it: on the tag list
[ {"name": ""} ] it returns "no valid tags found" instead of the maximum ""
of the filtered list the claim predicts. -/
theorem claim_C2_counterexample :
    anyExcluded "" = false ∧
    fetch_dockerhub_tags_res (.response 200 (.ok (.obj [("results",
      .arr [Json.obj [("name", Json.str "")]])]))) = some "no valid tags found" ∧
    some "no valid tags found" ≠ some ("" : String) :=
  ⟨by decide, by decide, by decide⟩

/-- C2 amended: for every successful (2xx) registry-tag response whose JSON
body is an object carrying a `results` list of tag objects with string (or
absent) names, the fetcher excludes exactly those tags whose name is empty or
missing or contains "ppc", "dev", "beta" or "ea" as a case-insensitive
substring; if the filtered list is non-empty it returns a maximum of it under
the custom ordering; if the original list was non-empty but everything was
filtered out it returns "no valid tags found"; if the original list was empty
it returns "no tags found"; on transport, HTTP-status or parse failure it
returns "error fetching tags". -/
theorem claim_C2_registry_fetcher (status : Nat) (fs : List (String × Json)) (tags : List Json)
    (h2xx : is_success status = true)
    (hres : alookup fs "results" = some (.arr tags))
    (hshape : ∀ t ∈ tags, (tagStr t).isSome) :
    (∀ s, s ∈ (tags.filterMap tagStr).filter keepTag ↔
        s ∈ tags.filterMap tagStr ∧ s ≠ "" ∧ anyExcluded s = false) ∧
    (tags = [] →
      fetch_dockerhub_tags_res (.response status (.ok (.obj fs))) = some "no tags found") ∧
    (tags ≠ [] → (tags.filterMap tagStr).filter keepTag = [] →
      fetch_dockerhub_tags_res (.response status (.ok (.obj fs))) =
        some "no valid tags found") ∧
    (∀ m ms, (tags.filterMap tagStr).filter keepTag = m :: ms →
      ∃ r, fetch_dockerhub_tags_res (.response status (.ok (.obj fs))) = some r ∧
        r ∈ m :: ms ∧ ∀ t ∈ m :: ms, tupLt (parse_version r) (parse_version t) = false) ∧
    fetch_dockerhub_tags_res .transportError = some "error fetching tags" ∧
    (∀ (status2 : Nat) (body : BodyResult), is_success status2 = false →
      fetch_dockerhub_tags_res (.response status2 body) = some "error fetching tags") ∧
    (∀ status3 : Nat, is_success status3 = true →
      fetch_dockerhub_tags_res (.response status3 .malformed) = some "error fetching tags") := by
  refine ⟨?_, ?_, ?_, ?_, rfl, ?_, ?_⟩
  · intro s
    simp [List.mem_filter, keepTag, and_assoc]
  · intro htags
    subst htags
    simp [fetch_dockerhub_tags_res, h2xx, hres, pyTruthy]
  · intro hne hemp
    cases tags with
    | nil => exact absurd rfl hne
    | cons t ts =>
      have hv := valid_tags_of_eq (t :: ts) hshape
      rw [hemp] at hv
      simp [fetch_dockerhub_tags_res, h2xx, hres, pyTruthy, pyLen, pyIter, hv]
  · intro m ms hfil
    cases tags with
    | nil => simp at hfil
    | cons t ts =>
      have hv := valid_tags_of_eq (t :: ts) hshape
      rw [hfil] at hv
      refine ⟨pyMax parse_version m ms, ?_, ?_, ?_⟩
      · simp [fetch_dockerhub_tags_res, h2xx, hres, pyTruthy, pyLen, pyIter, hv]
      · exact (pyMax_spec parse_version ms m).1
      · exact (pyMax_spec parse_version ms m).2
  · intro status2 body hbad
    simp [fetch_dockerhub_tags_res, hbad]
  · intro status3 hok
    simp [fetch_dockerhub_tags_res, hok]

/-- Witness for C2 at the claim's example: the filtered list is
["3.1.0", "3.10.0"] and the returned value is a maximum of it under the
custom ordering. -/
theorem claim_C2_witness :
    ∃ r, fetch_dockerhub_tags_res (.response 200 (.ok (.obj [("results", .arr
      [Json.obj [("name", Json.str "3.1.0")], Json.obj [("name", Json.str "3.2.0-ea")],
       Json.obj [("name", Json.str "3.10.0")]])]))) = some r ∧
      r ∈ ["3.1.0", "3.10.0"] ∧
      ∀ t ∈ ["3.1.0", "3.10.0"], tupLt (parse_version r) (parse_version t) = false :=
  (claim_C2_registry_fetcher 200
    [("results", .arr [Json.obj [("name", Json.str "3.1.0")],
      Json.obj [("name", Json.str "3.2.0-ea")], Json.obj [("name", Json.str "3.10.0")]])]
    [Json.obj [("name", Json.str "3.1.0")], Json.obj [("name", Json.str "3.2.0-ea")],
     Json.obj [("name", Json.str "3.10.0")]]
    (by decide) rfl (by decide)).2.2.2.1 "3.1.0" ["3.10.0"] (by decide)

/-- C3 counterexample: for a successful response whose `latest` value carries
an embedded quote, "a\"b+x", the code returns "a\b" — `replace('"', '')`
removes every quote character of the JSON serialization, leaving the escape
backslash — while the claimed strip-surrounding-quotes-then-truncate
computation yields "a\"b". -/
theorem claim_C3_counterexample :
    fetch_channel_version_res (.response 200 (.ok (.obj [("data", .arr
      [Json.obj [("latest", Json.str "a\"b+x")]])]))) = some "a\\b" ∧
    spec_strip_and_truncate "a\"b+x" = "a\"b" ∧
    ("a\\b" : String) ≠ "a\"b" :=
  ⟨by decide, by decide, by decide⟩

/-- C3 amended: the channel fetcher parses the body as JSON, descends
`data[0].latest`, removes every double-quote character from the JSON
serialization of that value — which for string values without embedded quotes
or escapes is exactly stripping the serializer's surrounding quotes — and
truncates at the first '+'; on the example body it returns "v1.31.2"; and a
malformed body, a missing `data` key, an empty `data` array, a missing
`latest` key, a transport error or a non-2xx status each yield
"upstream server issue". -/
theorem claim_C3_channel_fetcher (status : Nat) (fs efs : List (String × Json))
    (rest : List Json) (s : String) (h2xx : is_success status = true) :
    (alookup fs "data" = some (.arr (Json.obj efs :: rest)) →
      alookup efs "latest" = some (.str s) →
      (∀ c ∈ s.toList, plainChar c = true) →
      fetch_channel_version_res (.response status (.ok (.obj fs))) =
        some (String.mk (s.toList.takeWhile (fun c => c ≠ '+')))) ∧
    fetch_channel_version_res (.response 200 (.ok (.obj [("data", .arr
      [Json.obj [("latest", Json.str "v1.31.2+rke2r1")]])]))) = some "v1.31.2" ∧
    (∀ status3 : Nat, is_success status3 = true →
      fetch_channel_version_res (.response status3 .malformed) =
        some "upstream server issue") ∧
    (alookup fs "data" = none →
      fetch_channel_version_res (.response status (.ok (.obj fs))) =
        some "upstream server issue") ∧
    (alookup fs "data" = some (.arr []) →
      fetch_channel_version_res (.response status (.ok (.obj fs))) =
        some "upstream server issue") ∧
    (alookup fs "data" = some (.arr (Json.obj efs :: rest)) →
      alookup efs "latest" = none →
      fetch_channel_version_res (.response status (.ok (.obj fs))) =
        some "upstream server issue") ∧
    fetch_channel_version_res .transportError = some "upstream server issue" ∧
    (∀ (status2 : Nat) (body : BodyResult), is_success status2 = false →
      fetch_channel_version_res (.response status2 body) = some "upstream server issue") := by
  refine ⟨?_, by decide, ?_, ?_, ?_, ?_, rfl, ?_⟩
  · intro hd hl hplain
    have hh := channel_head_plain s hplain
    simp [fetch_channel_version_res, h2xx, pySubscrStr, pySubscrNat, hd, hl, hh]
  · intro status3 hok
    simp [fetch_channel_version_res, hok]
  · intro hd
    simp [fetch_channel_version_res, h2xx, pySubscrStr, hd, channel_subscr_err]
  · intro hd
    simp [fetch_channel_version_res, h2xx, pySubscrStr, pySubscrNat, hd, channel_subscr_err]
  · intro hd hl
    simp [fetch_channel_version_res, h2xx, pySubscrStr, pySubscrNat, hd, hl, channel_subscr_err]
  · intro status2 body hbad
    simp [fetch_channel_version_res, hbad]

/-- Witness for C3 at the example: a 200 response carrying
`{"data": [{"latest": "v1.31.2+rke2r1"}]}`, whose latest value is plain
ASCII, truncated at the '+'. -/
theorem claim_C3_witness :
    fetch_channel_version_res (.response 200 (.ok (.obj [("data", .arr
      [Json.obj [("latest", Json.str "v1.31.2+rke2r1")]])]))) =
      some (String.mk ("v1.31.2+rke2r1".toList.takeWhile (fun c => c ≠ '+'))) :=
  (claim_C3_channel_fetcher 200 [("data", .arr [Json.obj [("latest", Json.str "v1.31.2+rke2r1")]])]
    [("latest", Json.str "v1.31.2+rke2r1")] [] "v1.31.2+rke2r1" (by decide)).1
    rfl rfl (by decide)

/-- C5: after any completed refresh cycle, the published snapshot's key list
is exactly the registered source-name list (and that list has no duplicates):
one key per registry entry, no extra keys, whatever the individual fetch
outcomes were. -/
theorem claim_C5_snapshot_keys (client : Client) (snap : List (String × Json))
    (h : get_versions_async client = some snap) :
    snap.map Prod.fst = sources.map SourceSpec.name ∧
    (sources.map SourceSpec.name).Nodup :=
  ⟨get_versions_async_keys client snap h, by decide⟩

/-- Witness for C5: the all-transport-error cycle completes (every fetcher
degrades to its sentinel) and its snapshot is keyed by the registry names. -/
theorem claim_C5_witness :
    ∃ snap, get_versions_async ⟨[], fun _ => NetResult.transportError⟩ = some snap ∧
      snap.map Prod.fst = sources.map SourceSpec.name := by
  refine ⟨(get_versions_async ⟨[], fun _ => NetResult.transportError⟩).getD [], rfl, ?_⟩
  exact (claim_C5_snapshot_keys ⟨[], fun _ => NetResult.transportError⟩ _ rfl).1

/-- C6: a refresh cycle whose aggregation raises leaves the cache exactly at
its previous value, and every cycle either leaves the cache unchanged or
replaces it with a full snapshot keyed by the registry names — never a
partial update; the loop is a total function of the cycle index, so the
failure is not fatal and the next scheduled cycle still runs. -/
theorem claim_C6_refresh_failure (nets : Nat → HttpRequest → NetResult)
    (github_token : Option String) (init : List (String × Json)) (n : Nat) :
    (get_versions_async ⟨HEADERS github_token, nets n⟩ = none →
      refresh_versions nets github_token init (n + 1) =
        refresh_versions nets github_token init n) ∧
    (refresh_versions nets github_token init (n + 1) =
        refresh_versions nets github_token init n ∨
      (refresh_versions nets github_token init (n + 1)).map Prod.fst =
        sources.map SourceSpec.name) := by
  constructor
  · intro hfail
    simp [refresh_versions, refresh_once, hfail]
  · cases hc : get_versions_async ⟨HEADERS github_token, nets n⟩ with
    | none =>
      left
      simp [refresh_versions, refresh_once, hc]
    | some snap =>
      right
      have hr : refresh_versions nets github_token init (n + 1) = snap := by
        simp [refresh_versions, refresh_once, hc]
      rw [hr]
      exact get_versions_async_keys _ snap hc

/-- Witness for C6: a cycle in which every response is a 2xx with a malformed
body makes the release-tag fetcher raise `json.JSONDecodeError`, failing the
whole aggregation, and the cache keeps its previous value. -/
theorem claim_C6_witness :
    refresh_versions (fun _ _ => NetResult.response 200 BodyResult.malformed) none
      [("seed", Json.null)] 1 = [("seed", Json.null)] := by
  have h := (claim_C6_refresh_failure (fun _ _ => NetResult.response 200 BodyResult.malformed)
    none [("seed", Json.null)] 0).1 rfl
  exact h.trans rfl

/-- C7: contrary to the claim, the bearer token is attached client-wide — the
aggregator opens one `AsyncClient(headers=HEADERS)` shared by all fetchers —
so with GITHUB2_TOKEN = "t" the requests issued by the channel fetcher and
the registry-tag fetcher also carry `Authorization: Bearer t`; with the token
absent, no request carries an Authorization header. -/
theorem claim_C7_token_scope :
    (fetch_channel_version ⟨HEADERS (some "t"), fun _ => NetResult.transportError⟩
      "rke2").1.headers = [("Authorization", "Bearer t")] ∧
    (fetch_dockerhub_tags ⟨HEADERS (some "t"), fun _ => NetResult.transportError⟩
      "portworx/px-enterprise" "3").1.headers = [("Authorization", "Bearer t")] ∧
    (fetch_github_release ⟨HEADERS (some "t"), fun _ => NetResult.transportError⟩
      "rancher/rancher").1.headers = [("Authorization", "Bearer t")] ∧
    (fetch_channel_version ⟨HEADERS none, fun _ => NetResult.transportError⟩
      "rke2").1.headers = [] ∧
    (fetch_dockerhub_tags ⟨HEADERS none, fun _ => NetResult.transportError⟩
      "portworx/px-enterprise" "3").1.headers = [] ∧
    (fetch_github_release ⟨HEADERS none, fun _ => NetResult.transportError⟩
      "rancher/rancher").1.headers = [] :=
  ⟨rfl, rfl, rfl, rfl, rfl, rfl⟩

/-- C8: when the synchronous startup warm-up completes with a snapshot, every
key the status page reads is present in it, so each placeholder renders the
snapshot's value and the "loading..." default branch is never taken for the
first response. -/
theorem claim_C8_warmup (net : HttpRequest → NetResult) (github_token : Option String)
    (snap : List (String × Json)) (h : main_startup net github_token = some snap) :
    ∀ k ∈ curl_keys, ∃ v, alookup snap k = some v ∧
      pyDictGet snap k (.str "loading...") = v := by
  intro k hk
  have hkeys := get_versions_async_keys ⟨HEADERS github_token, net⟩ snap h
  have hsub : ∀ k2 ∈ curl_keys, k2 ∈ sources.map SourceSpec.name := by decide
  have hmem : k ∈ snap.map Prod.fst := by
    rw [hkeys]
    exact hsub k hk
  obtain ⟨v, hv⟩ := alookup_of_mem_keys snap k hmem
  exact ⟨v, hv, by simp [pyDictGet, hv]⟩

/-- Witness for C8: with every fetch degrading to a transport error the
warm-up still completes, and the first rendered value for "rancher" is the
snapshot's entry, not the placeholder. -/
theorem claim_C8_witness :
    ∃ v, alookup ((main_startup (fun _ => NetResult.transportError) none).getD [])
        "rancher" = some v ∧
      pyDictGet ((main_startup (fun _ => NetResult.transportError) none).getD [])
        "rancher" (.str "loading...") = v :=
  claim_C8_warmup (fun _ => NetResult.transportError) none _ rfl "rancher" (by decide)

/-- C9: the read accessor is idempotent and effect-free: reading leaves the
cache state unchanged, two consecutive reads with no intervening replacement
return identical mappings, and the response is the current cache with
status 200. -/
theorem claim_C9_read_idempotent (st : AppState) :
    (json_all_the_things st).2 = st ∧
    (json_all_the_things ((json_all_the_things st).2)).1 = (json_all_the_things st).1 ∧
    (json_all_the_things st).1 = (st.version_cache, 200) :=
  ⟨rfl, rfl, rfl⟩

end DzVer
